import Mathlib

/-!
Verification of the `simple_or_agent` repository against its specification.

This file shallowly embeds the Python code of the repository in Lean 4:

* `src/simple_or_agent/__init__.py`  — `format_inline_citations`
* `src/simple_or_agent/memory.py`    — `ConversationMemory.build_context`
* `src/simple_or_agent/lmstudio_client.py` — `LMStudioClient.__init__`,
  `_post_once`, `_make_request`, `extract_content`
* `src/simple_or_agent/react_agent.py` — the Thinker/Operator/Validator
  ReAct loop (`ThinkerAgent._parse_thought_and_action`,
  `OperatorAgent._infer_tool_from_text`, `OperatorAgent.execute`,
  `ValidatorAgent.judge`/`finalize`, `ReActAgent.ask`).

Python strings are modelled as Lean `String`s (with the character-level
work done on `List Char`).  Python's `re` searches used by the code are
small fixed patterns; each one is embedded as an explicit scanner that
reproduces the leftmost-search / greedy / backtracking semantics of that
particular pattern (documented at each definition).  Python whitespace
(`\s`) is modelled by its ASCII cases, which is exact for all the ASCII
text the agents exchange.  LLM calls and HTTP traffic are oracles passed
in as functions.
-/

namespace SimpleOrAgent

/-! ## Python-style text primitives -/

/-- Python `\s` / `str.strip` whitespace (ASCII cases: space, \t, \n, \r,
\x0b, \x0c). -/
def pyWs (c : Char) : Bool :=
  c = ' ' || c = '\t' || c = '\n' || c = '\r' || c = Char.ofNat 11 || c = Char.ofNat 12

/-- The single-quote character, built by code point to keep source plain. -/
def sqChar : Char := Char.ofNat 39

def dropWsL (cs : List Char) : List Char := cs.dropWhile pyWs

def dropWsR (cs : List Char) : List Char := (cs.reverse.dropWhile pyWs).reverse

/-- Python `str.strip()` on a character list. -/
def stripC (cs : List Char) : List Char := dropWsR (dropWsL cs)

/-- Python `str.strip()`. -/
def pyStripS (s : String) : String := ⟨stripC s.data⟩

/-- Python `str.rstrip(set)` on a character list. -/
def rstripSet (set : List Char) (cs : List Char) : List Char :=
  (cs.reverse.dropWhile (fun c => set.contains c)).reverse

/-- Python `str.lower()` (ASCII). -/
def pyLowerS (s : String) : String := ⟨s.data.map Char.toLower⟩

/-- Python `sep.join(xs)`. -/
def pyJoin (sep : String) : List String → String
  | [] => ""
  | [x] => x
  | x :: y :: xs => x ++ sep ++ pyJoin sep (y :: xs)

/-- Python `xs[-n:]` for a list (the last `n` elements). -/
def takeLastN (n : Nat) (xs : List α) : List α := xs.drop (xs.length - n)

/-- Python truthiness of an optional string: `x or alt`. -/
def pyOrS : Option String → String → String
  | some s, alt => if s = "" then alt else s
  | none, alt => alt

/-- Case-insensitive literal match of `pat` at the head of `cs`. -/
def startsWithCI : List Char → List Char → Bool
  | [], _ => true
  | _ :: _, [] => false
  | p :: ps, c :: cs => (p.toLower == c.toLower) && startsWithCI ps cs

/-- Case-sensitive literal match of `pat` at the head of `cs`. -/
def startsWithSeq : List Char → List Char → Bool
  | [], _ => true
  | _ :: _, [] => false
  | p :: ps, c :: cs => (p == c) && startsWithSeq ps cs

/-- `pat` occurs (contiguously) somewhere in `cs`. -/
def containsSeq (pat : List Char) : List Char → Bool
  | [] => pat.isEmpty
  | c :: cs => startsWithSeq pat (c :: cs) || containsSeq pat cs

/-- String-level substring test. -/
def containsStr (hay pat : String) : Bool := containsSeq pat.data hay.data

/-- String-level suffix test. -/
def endsWithStr (s suffixStr : String) : Bool :=
  startsWithSeq suffixStr.data.reverse s.data.reverse

/-- Decimal digits of a natural number (fuelled; fuel `n+1` always
suffices). -/
def natDigsCore : Nat → Nat → List Char → List Char
  | 0, _, acc => acc
  | fuel + 1, n, acc =>
    let d := Char.ofNat (48 + n % 10)
    if n < 10 then d :: acc else natDigsCore fuel (n / 10) (d :: acc)

/-- Python `str(n)` for a natural number. -/
def natRepr (n : Nat) : String := ⟨natDigsCore (n + 1) n []⟩

/-- Python `str(i)` for an integer. -/
def intRepr (i : Int) : String :=
  if i < 0 then "-" ++ natRepr (-i).toNat else natRepr i.toNat

/-! ## A model of Python/JSON values (`PyVal`) -/

/-- Dynamically typed JSON-ish Python value, as handled by
`extract_content` and `json.dumps`. -/
inductive PyVal where
  | null
  | pbool (b : Bool)
  | pnum (n : Int)
  | pstr (s : String)
  | plist (xs : List PyVal)
  | pdict (kvs : List (String × PyVal))

/-- Python `v is None`. -/
def PyVal.isNull : PyVal → Bool
  | .null => true
  | _ => false

/-- First-match association-list lookup (Python `dict` keys are unique, so
first match is the dict lookup). -/
def getv : List (String × PyVal) → String → Option PyVal
  | [], _ => none
  | (k, v) :: t, key => if k = key then some v else getv t key

theorem getv_sizeOf {kvs : List (String × PyVal)} {k : String} {v : PyVal}
    (h : getv kvs k = some v) : sizeOf v < sizeOf kvs := by
  induction kvs with
  | nil => simp [getv] at h
  | cons hd t ih =>
    obtain ⟨k', v'⟩ := hd
    simp only [getv] at h
    by_cases hk : k' = k
    · simp [hk] at h
      subst h
      simp
      omega
    · simp [hk] at h
      have := ih h
      simp
      omega

/-- Python `json.dumps(v, ensure_ascii=False)` (string escaping is not
modelled; all strings the claims touch are escape-free). -/
def pyDumps : PyVal → String
  | .null => "null"
  | .pbool true => "true"
  | .pbool false => "false"
  | .pnum n => intRepr n
  | .pstr s => "\"" ++ s ++ "\""
  | .plist xs => "[" ++ pyJoin ", " (xs.attach.map (fun x => pyDumps x.1)) ++ "]"
  | .pdict kvs =>
      "\x7b" ++
        pyJoin ", " (kvs.attach.map (fun kv => "\"" ++ kv.1.1 ++ "\": " ++ pyDumps kv.1.2)) ++
      "\x7d"
termination_by v => sizeOf v
decreasing_by
  · have := List.sizeOf_lt_of_mem x.2
    simp at *
    omega
  · obtain ⟨⟨k', v'⟩, hmem⟩ := kv
    have := List.sizeOf_lt_of_mem hmem
    simp at *
    omega

/-- `_collect` from `LMStudioClient.extract_content`: gather nested text
parts from a structured content value. -/
def collect (obj : PyVal) : List String :=
  match obj with
  | .null | .pbool _ | .pnum _ => []
  | .pstr s =>
      -- `s = obj.strip(); return [s] if s else []`
      let t := pyStripS s
      if t = "" then [] else [t]
  | .plist xs => xs.attach.flatMap (fun x => collect x.1)
  | .pdict kvs =>
      -- `t = obj.get('text')`, then the 'content'/'value'/'message' loop
      (match htext : getv kvs "text" with
       | some (.pstr t) => if pyStripS t = "" then [] else [pyStripS t]
       | some (.plist ts) => collect (.plist ts)
       | _ => []) ++
      (match hc : getv kvs "content" with
       | some v => if v.isNull then [] else collect v
       | none => []) ++
      (match hv : getv kvs "value" with
       | some v => if v.isNull then [] else collect v
       | none => []) ++
      (match hm : getv kvs "message" with
       | some v => if v.isNull then [] else collect v
       | none => [])
termination_by sizeOf obj
decreasing_by
  · have := List.sizeOf_lt_of_mem x.2
    simp at *
    omega
  · have h1 := getv_sizeOf htext
    simp at *
    omega
  · have h1 := getv_sizeOf hc
    simp at *
    omega
  · have h1 := getv_sizeOf hv
    simp at *
    omega
  · have h1 := getv_sizeOf hm
    simp at *
    omega

/-- `_collect` mapped over a list (the `isinstance(content, list)` branch). -/
def collectL (xs : List PyVal) : List String := xs.flatMap collect

/-! ## `format_inline_citations` (src/simple_or_agent/__init__.py) -/

/-- `re.search(r"\[[0-9]+\]", text)` as a boolean: scan left to right for
`[`, one or more ASCII digits, `]`. -/
def markerScanC : List Char → Bool
  | [] => false
  | c :: rest =>
    (c = '[' &&
      (let ds := rest.takeWhile Char.isDigit
       !ds.isEmpty && ((rest.drop ds.length).headD ' ' == ']')))
    || markerScanC rest

/-- Python `\w` (ASCII cases). -/
def isWordChar (c : Char) : Bool := c.isAlphanum || c = '_'

/-- Test for `\s*(sources|references)\b` (case-insensitive) at one line
start.  `\s*` may also cross onto later lines, but those positions are
themselves line starts, so scanning every line start is equivalent. -/
def srcHeadTest (s : List Char) : Bool :=
  let b := s.dropWhile pyWs
  (startsWithCI "sources".data b &&
    (match b.drop 7 with | [] => true | c :: _ => !isWordChar c)) ||
  (startsWithCI "references".data b &&
    (match b.drop 10 with | [] => true | c :: _ => !isWordChar c))

/-- Line starts after the first position: test `srcHeadTest` after every
newline. -/
def srcScanAux : List Char → Bool
  | [] => false
  | c :: r => (c = '\n' && srcHeadTest r) || srcScanAux r

/-- `re.search(r"(?mi)^\s*(sources|references)\b", text)` as a boolean:
with `re.M`, `^` matches at the string start and after every newline. -/
def srcScan (cs : List Char) : Bool :=
  srcHeadTest cs || srcScanAux cs

/-- Character class of `https?://[^\s\]\)\>\}\"']+`. -/
def citeUrlChar (c : Char) : Bool :=
  !pyWs c && c != ']' && c != ')' && c != '>' && c != '\x7d' && c != '"' && c != sqChar

/-- Match `https?://[^\s\]\)\>\}\"']+` at the head: the literal scheme
(greedy `s?`), then one or more class characters. -/
def citeUrlAt (cs : List Char) : Option (List Char × List Char) :=
  if startsWithSeq "https://".data cs then
    let rest := cs.drop 8
    let run := rest.takeWhile citeUrlChar
    if run.isEmpty then none else some ("https://".data ++ run, rest.drop run.length)
  else if startsWithSeq "http://".data cs then
    let rest := cs.drop 7
    let run := rest.takeWhile citeUrlChar
    if run.isEmpty then none else some ("http://".data ++ run, rest.drop run.length)
  else none

/-- Leftmost match of the citation URL pattern, split as
(prefix, match, remainder). -/
def citeFind : List Char → Option (List Char × List Char × List Char)
  | [] => none
  | c :: cs =>
    match citeUrlAt (c :: cs) with
    | some (u, rest) => some ([], u, rest)
    | none => (citeFind cs).map (fun p => (c :: p.1, p.2.1, p.2.2))

theorem takeWhile_len_le (p : Char → Bool) (l : List Char) :
    (l.takeWhile p).length ≤ l.length := by
  induction l with
  | nil => simp
  | cons c t ih =>
    simp only [List.takeWhile]
    by_cases h : p c
    · simp [h]; omega
    · simp [h]

theorem citeUrlAt_rest_length {cs u rest : List Char}
    (h : citeUrlAt cs = some (u, rest)) : rest.length < cs.length := by
  unfold citeUrlAt at h
  by_cases h8 : startsWithSeq "https://".data cs
  · simp only [h8, if_true] at h
    by_cases hrun : ((cs.drop 8).takeWhile citeUrlChar).isEmpty
    · simp [hrun] at h
    · simp [hrun] at h
      obtain ⟨-, h2⟩ := h
      subst h2
      have hlen8 : 8 ≤ cs.length := by
        by_contra hlt
        push_neg at hlt
        have : cs.drop 8 = [] := List.drop_eq_nil_of_le (by omega)
        rw [this] at hrun
        simp [List.takeWhile] at hrun
      have hrunpos : 0 < ((cs.drop 8).takeWhile citeUrlChar).length := by
        cases hx : (cs.drop 8).takeWhile citeUrlChar with
        | nil => rw [hx] at hrun; simp at hrun
        | cons a b => simp [hx]
      have hle : ((cs.drop 8).takeWhile citeUrlChar).length ≤ (cs.drop 8).length :=
        takeWhile_len_le _ _
      simp [List.length_drop]
      omega
  · simp only [h8, if_false] at h
    by_cases h7 : startsWithSeq "http://".data cs
    · simp only [h7, if_true] at h
      by_cases hrun : ((cs.drop 7).takeWhile citeUrlChar).isEmpty
      · simp [hrun] at h
      · simp [hrun] at h
        obtain ⟨-, h2⟩ := h
        subst h2
        have hlen7 : 7 ≤ cs.length := by
          by_contra hlt
          push_neg at hlt
          have : cs.drop 7 = [] := List.drop_eq_nil_of_le (by omega)
          rw [this] at hrun
          simp [List.takeWhile] at hrun
        have hrunpos : 0 < ((cs.drop 7).takeWhile citeUrlChar).length := by
          cases hx : (cs.drop 7).takeWhile citeUrlChar with
          | nil => rw [hx] at hrun; simp at hrun
          | cons a b => simp [hx]
        have hle : ((cs.drop 7).takeWhile citeUrlChar).length ≤ (cs.drop 7).length :=
          takeWhile_len_le _ _
        simp [List.length_drop]
        omega
    · simp [h7] at h

theorem citeFind_rest_length {cs p u r : List Char}
    (h : citeFind cs = some (p, u, r)) : r.length < cs.length := by
  induction cs generalizing p u r with
  | nil => simp [citeFind] at h
  | cons c t ih =>
    simp only [citeFind] at h
    split at h
    next u' rest' hat =>
      injection h with h'
      have h3 : rest' = r := congrArg (fun q => q.2.2) h'
      exact h3 ▸ citeUrlAt_rest_length hat
    next hat =>
      rw [Option.map_eq_some'] at h
      obtain ⟨⟨p', u', r'⟩, hfind, heq⟩ := h
      have h3 : r' = r := congrArg (fun q => q.2.2) heq
      have := ih (h3 ▸ hfind)
      simp
      omega

/-- First index of `x` in `l` (Python `list.index`; call only when present). -/
def idxOf (x : List Char) : List (List Char) → Nat
  | [] => 0
  | y :: t => if y = x then 0 else idxOf x t + 1

/-- Characters Python strips from a matched URL's right end:
`url.rstrip(".,);:'\"]")`. -/
def citeTrimChars : List Char := ['.', ',', ')', ';', ':', sqChar, '"', ']']

/-- The `url_re.sub(_repl, text)` pass: replace each URL match with its
`[n]` marker (keeping the stripped punctuation suffix), threading the
`seen` list of first-appearance trimmed URLs.  Fuelled so evaluation is
structural; each step strictly shortens the remaining text
(`citeFind_rest_length`), so fuel `length + 1` always suffices. -/
def citeSubF : Nat → List Char → List (List Char) → List (List Char) × List Char
  | 0, cs, seen => (seen, cs)
  | fuel + 1, cs, seen =>
    match citeFind cs with
    | none => (seen, cs)
    | some (pre, url, rest) =>
      let trimmed := rstripSet citeTrimChars url
      let suffixC := url.drop trimmed.length
      let seen' := if seen.contains trimmed then seen else seen ++ [trimmed]
      let idx := idxOf trimmed seen' + 1
      let marker := '[' :: (natRepr idx).data ++ [']']
      let out := citeSubF fuel rest seen'
      (out.1, pre ++ marker ++ suffixC ++ out.2)

def citeSub (cs : List Char) (seen : List (List Char)) :
    List (List Char) × List Char :=
  citeSubF (cs.length + 1) cs seen

/-- Numbered source lines: `[i] url` for `i = start, start+1, ...`
(`enumerate(seen, 1)` in the source). -/
def srcLines : Nat → List (List Char) → List String
  | _, [] => []
  | i, u :: us => ("[" ++ natRepr i ++ "] " ++ (⟨u⟩ : String)) :: srcLines (i + 1) us

/-- `format_inline_citations` from `src/simple_or_agent/__init__.py`. -/
def format_inline_citations (text : String) : String :=
  -- `if not isinstance(text, str) or not text.strip(): return text or ""`
  if pyStripS text = "" then (if text = "" then "" else text)
  -- `if re.search(r"\[[0-9]+\]", text): return text`
  else if markerScanC text.data then text
  -- `if re.search(r"(?mi)^\s*(sources|references)\b", text): return text`
  else if srcScan text.data then text
  else
    let sub := citeSub text.data []
    let seen := sub.1
    let newText := sub.2
    if seen.isEmpty then text
    else
      (⟨dropWsR newText⟩ : String) ++ "\n\nSources\n" ++
        pyJoin "\n" (srcLines 1 seen) ++ "\n"

/-! ## Scoped memory (src/simple_or_agent/memory.py) -/

structure MemoryPolicy where
  keep_last : Int := 6
  max_chars : Int := 4000
  summarize_beyond : Bool := true

structure MemoryItem where
  role : String
  content : String
  tags : List String := []
  scope : String := "session"

/-- `ConversationMemory._select_items`: all items, or those whose tag set
intersects `include_tags` (`if not include_tags` treats `None` and `[]`
alike). -/
def select_items (items : List MemoryItem) (include_tags : Option (List String)) :
    List MemoryItem :=
  match include_tags with
  | none => items
  | some want =>
    if want.isEmpty then items
    else items.filter (fun it => it.tags.any (fun t => want.contains t))

/-- `ConversationMemory._join`: `role: content.strip()` lines. -/
def joinItems (items : List MemoryItem) : String :=
  pyJoin "\n" (items.map (fun it => it.role ++ ": " ++ pyStripS it.content))

/-- Python slice `s[i:]` (negative `i` counts from the end). -/
def pySliceFrom (i : Int) (s : String) : String :=
  let n : Int := s.data.length
  let start : Nat := if i < 0 then (max 0 (n + i)).toNat else (min i n).toNat
  ⟨s.data.drop start⟩

/-- `ConversationMemory._naive_summarize`. -/
def naive_summarize (text : String) (max_chars : Int) : String :=
  if max_chars ≤ 0 || text = "" then ""
  else if (text.data.length : Int) ≤ max_chars then text
  else
    let take := (max_chars / 2).toNat
    (⟨dropWsR (text.data.take take)⟩ : String) ++ " … " ++
      (⟨dropWsL (text.data.drop (text.data.length - take))⟩ : String)

/-- Python `int(x or default)` for the `max_chars` parameter (`0` is
falsy). -/
def pyOrInt : Option Int → Int → Int
  | some v, d => if v = 0 then d else v
  | none, d => d

/-- `ConversationMemory.build_context`.  The optional summarizer models
the injected `self._summarizer` (which may raise, hence `Except`). -/
def build_context (items : List MemoryItem) (policy : MemoryPolicy)
    (summarizer : Option (String → Int → Except String String))
    (include_tags : Option (List String)) (max_chars? : Option Int) : String :=
  let selected := select_items items include_tags
  if selected.isEmpty then ""
  else
    let keep_last : Nat := (max 1 policy.keep_last).toNat
    let max_chars : Int := pyOrInt max_chars? policy.max_chars
    let raw := joinItems selected
    if (raw.data.length : Int) ≤ max_chars then raw
    else
      let head := selected.take (selected.length - keep_last)
      let tail := selected.drop (selected.length - keep_last)
      let head_txt := joinItems head
      let tail_txt := joinItems tail
      if head_txt = "" then pySliceFrom (-max_chars) tail_txt
      else
        let budget_for_head : Int := max 0 (max_chars - tail_txt.data.length - 50)
        if budget_for_head ≤ 0 then pySliceFrom (-max_chars) tail_txt
        else
          let head_sum :=
            if policy.summarize_beyond then
              match summarizer with
              | some f =>
                match f head_txt budget_for_head with
                | .ok s => s
                | .error _ => naive_summarize head_txt budget_for_head
              | none => naive_summarize head_txt budget_for_head
            else naive_summarize head_txt budget_for_head
          let parts :=
            (if head_sum = "" then [] else ["summary: " ++ pyStripS head_sum]) ++
            (if tail_txt = "" then [] else [tail_txt])
          pySliceFrom (-max_chars) (pyJoin "\n" parts)

/-! ## LM Studio client (src/simple_or_agent/lmstudio_client.py) -/

/-- The two exception classes raised by `_post_once`:
`LMStudioAPIError` (subclass, carries a status code; the class tenacity is
configured to retry) and the plain `LMStudioError` (client errors; not in
the retry class). -/
inductive LMErr where
  | api (msg : String) (status : Option Nat)
  | client (msg : String)

/-- `retry_if_exception_type(LMStudioAPIError)`. -/
def LMErr.retryable : LMErr → Bool
  | .api _ _ => true
  | .client _ => false

/-- One HTTP exchange as seen by `_post_once`: a response (status code,
parsed JSON body if the payload parses, raw text), or a transport
failure. -/
inductive HttpOutcome where
  | resp (status : Nat) (body : Option PyVal) (text : String)
  | timeout
  | connError (e : String)

/-- `str(x)` as interpolated into the error f-strings; exact only for the
string case, which is the shape the claims exercise. -/
def pyStr : PyVal → String
  | .pstr s => s
  | v => pyDumps v

/-- The `ed['error']` detail lookup: `response.json()` must parse to a
dict containing `"error"`. -/
def errDetail (body : Option PyVal) : Option String :=
  match body with
  | some (.pdict kvs) =>
    match getv kvs "error" with
    | some v => some (pyStr v)
    | none => none
  | _ => none

/-- `LMStudioClient._post_once`: classify one HTTP outcome.
429 → `LMStudioAPIError`; 5xx → `LMStudioAPIError`; other 4xx → plain
`LMStudioError`; transport errors → `LMStudioAPIError`; otherwise the
parsed JSON body is returned (an unparseable success body surfaces as the
`requests.RequestException` catch-all, an `LMStudioAPIError`). -/
def _post_once (timeout_s : Int) (r : HttpOutcome) : Except LMErr PyVal :=
  match r with
  | .resp status body text =>
    if status = 429 then
      .error (.api "Rate limited (429)" (some 429))
    else if 500 ≤ status ∧ status < 600 then
      .error (.api
        (match errDetail body with
         | some d => "Server error (" ++ natRepr status ++ "): " ++ d
         | none => "Server error (" ++ natRepr status ++ ")")
        (some status))
    else if 400 ≤ status ∧ status < 500 then
      .error (.client
        (match body with
         | none => "Client error (" ++ natRepr status ++ "): " ++ text
         | some b =>
           match errDetail (some b) with
           | some d => "Client error (" ++ natRepr status ++ "): " ++ d
           | none => "Client error (" ++ natRepr status ++ ")"))
    else
      match body with
      | some v => .ok v
      | none => .error (.api "Request error: invalid JSON body" none)
  | .timeout => .error (.api ("Request timeout after " ++ intRepr timeout_s ++ "s") none)
  | .connError e => .error (.api ("Connection error: " ++ e) none)

/-- `LMStudioClient._make_request` as written: the source iterates
tenacity's `Retrying` object with `for _ in retryer: return
self._post_once(url, payload)` — i.e. WITHOUT the `with attempt:` context
manager that tenacity requires to observe failures.  An exception raised
by the loop body propagates straight out of the `for` statement; the
retry controller never records it and never sleeps or retries.  So
exactly one HTTP attempt happens, whatever `max_retries` is.  The result
is paired with the number of HTTP attempts made. -/
def _make_request (timeout_s : Int) (responses : Nat → HttpOutcome)
    (max_retries : Int) : Except LMErr PyVal × Nat :=
  (_post_once timeout_s (responses 1), 1)

/-- Modelled from the spec: the intended bounded-retry semantics of
`_make_request` ("TransientAPIError ... retried with exponential backoff,
bounded attempt count", surfaced when exhausted; non-retryable errors
surfaced at once).  Attempt `i` uses `responses i`; only `LMErr.retryable`
errors are retried; at most `max_retries` attempts are made.  Returns the
final outcome and the attempts used. -/
def makeRequestRetrySpec (timeout_s : Int) (responses : Nat → HttpOutcome) :
    Nat → Nat → Except LMErr PyVal × Nat
  | attempt, 0 => (.error (.api "Exhausted retries without a response" none), attempt - 1)
  | attempt, remaining + 1 =>
    match _post_once timeout_s (responses attempt) with
    | .ok v => (.ok v, attempt)
    | .error e =>
      if e.retryable ∧ remaining ≠ 0 then
        makeRequestRetrySpec timeout_s responses (attempt + 1) remaining
      else (.error e, attempt)

/-- Modelled from the spec / tenacity's documented `wait_exponential`:
the delay before retry `k` (1-based) is `multiplier * 2^k`, capped at
`max`. -/
def waitExp (multiplier maxWait : Int) (k : Nat) : Int :=
  min (multiplier * 2 ^ k) maxWait

/-- `LMStudioClient.__init__` result state (the fields the constructor
sets). -/
structure LMClientState where
  base_url : String
  api_key : Option String
  timeout_s : Int
  max_retries : Int
  retry_base_wait : Int
  retry_max_wait : Int
  headers : List (String × String)

/-- Python string-or chain where `None` and `""` are falsy, returning the
first truthy value if any (`a or b` over optional strings). -/
def pyFirstTruthy : List (Option String) → Option String
  | [] => none
  | none :: t => pyFirstTruthy t
  | some s :: t => if s = "" then pyFirstTruthy t else some s

/-- `LMStudioClient.__init__`: resolve the base URL (argument, then
`LMSTUDIO_BASE_URL`, then the hard default), normalise it to end in
`/v1`, resolve the optional API key (argument, then `LMSTUDIO_API_KEY`),
and set headers.  There is no failure path: the constructor always
succeeds (the `Except` layer mirrors Python's ability to raise and shows
it is unused). -/
def lmstudio_init (base_url api_key : Option String) (env : String → Option String)
    (timeout_s : Int := 30) (max_retries : Int := 3)
    (retry_base_wait : Int := 1) (retry_max_wait : Int := 30) :
    Except String LMClientState :=
  let url0 := (pyFirstTruthy [base_url, env "LMSTUDIO_BASE_URL",
                some "http://192.168.1.157:1234"]).getD ""
  let url := (⟨rstripSet ['/'] url0.data⟩ : String)
  let base := if endsWithStr url "/v1" then url else url ++ "/v1"
  let key := pyFirstTruthy [api_key, env "LMSTUDIO_API_KEY"]
  .ok {
    base_url := base
    api_key := key
    timeout_s := timeout_s
    max_retries := max_retries
    retry_base_wait := retry_base_wait
    retry_max_wait := retry_max_wait
    headers := [("Content-Type", "application/json")] ++
      (match key with
       | some k => if k = "" then [] else [("Authorization", "Bearer " ++ k)]
       | none => [])
  }

/-! ### `extract_content` -/

/-- One entry of `message.tool_calls`, typed by the OpenAI tool-call
schema the code reads (`id` and `function.name` strings when present). -/
structure ToolCallV where
  id : Option String := none
  fname : Option String := none

/-- The summary entry the code builds for one requested call:
`\x7b'id': (c.get('id') or '')[:12], 'name': ((c.get('function') or
\x7b\x7d).get('name') or '')\x7d`. -/
def callSumm (c : ToolCallV) : PyVal :=
  .pdict [("id", .pstr (⟨((c.id.getD "").data.take 12)⟩ : String)),
          ("name", .pstr (c.fname.getD ""))]

/-- `choices[0].message`, typed: `content` (any shape), optional
`parsed`, and `tool_calls` (with `msg.get('tool_calls') or []` folded
in). -/
structure RespMsg where
  content : PyVal := .null
  parsed : Option PyVal := none
  tool_calls : List ToolCallV := []

/-- The first two content shapes tried by `extract_content`: a non-blank
plain string is returned as-is; a list has its collected parts joined;
otherwise nothing. -/
def contentText : PyVal → Option String
  | .pstr s => if pyStripS s = "" then none else some s
  | .plist xs =>
    let parts := collectL xs
    if parts.isEmpty then none else some (pyJoin "\n" parts)
  | _ => none

/-- The JSON placeholder built for a tool-calls-only message. -/
def toolCallPlaceholder (tc : List ToolCallV) : String :=
  pyDumps (.pdict [("note", .pstr "no_text_content"),
                   ("tool_calls", .plist (tc.map callSumm))])

/-- `LMStudioClient.extract_content` over the typed `choices` list:
plain string → as-is; list of parts → joined collected text; `parsed` →
JSON-serialised; tool calls only → placeholder; otherwise
`LMStudioError`. -/
def extract_content (choices : List RespMsg) : Except String String :=
  match choices with
  | [] => .error "No choices in response"
  | msg :: _ =>
    match contentText msg.content with
    | some s => .ok s
    | none =>
      match msg.parsed with
      | some p => .ok (pyDumps p)
      | none =>
        if msg.tool_calls.isEmpty then .error "Empty content in response"
        else .ok (toolCallPlaceholder msg.tool_calls)

/-! ## ReAct agent (src/simple_or_agent/react_agent.py) -/

/-- `ActionSpec` dataclass: `type` is `"tool" | "finish" | "plan"`,
arguments are modelled as string-valued pairs (the only kind the
inference rules ever build). -/
structure ActionSpec where
  type : String
  name : Option String := none
  args : Option (List (String × String)) := none
  say : Option String := none

structure ReActStep where
  thought : String
  action : ActionSpec
  observation : String

/-- `ToolSpec`: handlers return either an observation string or raise; a
non-string Python result and its `json.dumps` serialisation are folded
into the returned string. -/
structure ToolSpec where
  name : String
  description : String
  parameters : PyVal := .pdict []
  handler : List (String × String) → Except String String

/-- Registry lookup (`self._tools.get(name)`; names are unique keys). -/
def getTool (tools : List ToolSpec) (n : String) : Option ToolSpec :=
  tools.find? (fun t => t.name = n)

def hasTool (tools : List ToolSpec) (n : String) : Bool :=
  (getTool tools n).isSome

/-- `OperatorAgent.add_tool`: `self._tools[tool.name] = tool` (replace on
duplicate name, else append). -/
def add_tool (tools : List ToolSpec) (t : ToolSpec) : List ToolSpec :=
  if hasTool tools t.name then
    tools.map (fun t0 => if t0.name = t.name then t else t0)
  else tools ++ [t]

/-- Code-point lexicographic `≤` on strings (Python string ordering, as
used by `sorted`). -/
def lexLeC : List Char → List Char → Bool
  | [], _ => true
  | _ :: _, [] => false
  | a :: as, b :: bs =>
    if a.toNat < b.toNat then true
    else if a.toNat > b.toNat then false
    else lexLeC as bs

def insertSorted (s : String) : List String → List String
  | [] => [s]
  | t :: ts => if lexLeC s.data t.data then s :: t :: ts else t :: insertSorted s ts

/-- Python `sorted` on strings (insertion sort; stable, total order by
code points). -/
def sortStrings (l : List String) : List String := l.foldr insertSorted []

/-- `", ".join(sorted(self._tools.keys()))`. -/
def sortedNames (tools : List ToolSpec) : String :=
  pyJoin ", " (sortStrings (tools.map (fun t => t.name)))

/-- `OperatorAgent.tool_catalog`. -/
def tool_catalog (tools : List ToolSpec) : String :=
  if tools.isEmpty then ""
  else pyJoin "\n" (tools.map (fun t =>
    "- " ++ t.name ++ ": " ++ t.description ++ "\n  params: " ++ pyDumps t.parameters))

/-! ### Thinker / Validator output parsing

The regexes involved are embedded as explicit scanners; their
leftmost-search / greedy / lazy semantics were cross-checked against
CPython `re`. -/

/-- `re.search(r"^\s*Final\s+Answer:\s*(.*)$", text, re.I | re.S)`,
returning `group(1).strip()` on success.  `^` without `re.M` anchors at
the string start, so the marker must open the text (after leading
whitespace); with `re.S`, `(.*)$` takes everything to the end. -/
def parseFinalAnswerC (cs : List Char) : Option (List Char) :=
  let t := dropWsL cs
  if startsWithCI "final".data t then
    let r1 := t.drop 5
    let ws := r1.takeWhile pyWs
    if ws.isEmpty then none
    else
      let r2 := r1.drop ws.length
      if startsWithCI "answer:".data r2 then some (stripC (r2.drop 7)) else none
  else none

/-- The terminator of the lazy group in
`Thought:\s*(.*?)(?:\n\s*Action:|$)`: a newline followed by optional
whitespace and `Action:` (case-insensitive), or the `$` positions (end of
string, or a sole final newline). -/
def thoughtTermAt (s : List Char) : Bool :=
  (match s with
   | '\n' :: r => startsWithCI "action:".data (r.dropWhile pyWs)
   | _ => false)
  || s.isEmpty || (s = ['\n'])

/-- Collect the lazy group: shortest prefix whose suffix satisfies the
terminator. -/
def grabUntilTerm : List Char → List Char
  | [] => []
  | c :: r => if thoughtTermAt (c :: r) then [] else c :: grabUntilTerm r

/-- Remainder after the leftmost case-insensitive occurrence of `pat`. -/
def findCI (pat : List Char) : List Char → Option (List Char)
  | [] => if pat.isEmpty then some [] else none
  | c :: cs =>
    if startsWithCI pat (c :: cs) then some ((c :: cs).drop pat.length)
    else findCI pat cs

/-- The `Thought:` group of `_parse_thought_and_action` (empty when the
pattern does not match). After the label, `\s*` greedily eats whitespace,
then the lazy group runs to the first terminator (which always exists, at
worst `$`). -/
def thoughtOf (cs : List Char) : String :=
  match findCI "thought:".data cs with
  | none => ""
  | some rest => ⟨stripC (grabUntilTerm (rest.dropWhile pyWs))⟩

/-- The `Action:` group of `_parse_thought_and_action`
(`Action:\s*(.*)$` with `re.S`: everything after the leftmost label,
stripped). -/
def actionOf (cs : List Char) : String :=
  match findCI "action:".data cs with
  | none => ""
  | some rest => ⟨stripC rest⟩

/-- `ThinkerAgent._parse_thought_and_action`. -/
def _parse_thought_and_action (text : String) : String × ActionSpec :=
  match parseFinalAnswerC text.data with
  | some ans =>
    ("", { type := "finish", name := none, args := none, say := some ⟨ans⟩ })
  | none =>
    (thoughtOf text.data,
     { type := "plan", name := none, args := none, say := some (actionOf text.data) })

/-- `Decision:\s*continue\b` (case-insensitive) at the (whitespace-
padded) start of the text. -/
def decisionContinueAt (cs : List Char) : Bool :=
  let t := dropWsL cs
  if startsWithCI "decision:".data t then
    let r := (t.drop 9).dropWhile pyWs
    startsWithCI "continue".data r &&
      (match r.drop 8 with | [] => true | c :: _ => !isWordChar c)
  else false

/-- `ValidatorAgent.judge` decision parsing: `Final Answer:` wins, then
`Decision: continue`; anything else falls back to continue. -/
def judgeDecision (raw : String) : Bool × String :=
  let text := pyStripS raw
  match parseFinalAnswerC text.data with
  | some ans => (true, ⟨ans⟩)
  | none =>
    -- `Decision: continue` and the fallback both yield (continue, "")
    if decisionContinueAt text.data then (false, "") else (false, "")

/-- `ValidatorAgent.finalize` response parsing: the `Final Answer:` group
if present, else the raw (stripped) content. -/
def finalizeText (raw : String) : String :=
  let text := pyStripS raw
  match parseFinalAnswerC text.data with
  | some ans => ⟨ans⟩
  | none => text

/-! ### Operator free-text tool inference -/

/-- Match `https?://\S+` at the head (greedy `s?`, then at least one
non-whitespace character). -/
def urlAt (cs : List Char) : Option (List Char) :=
  if startsWithSeq "https://".data cs then
    let run := (cs.drop 8).takeWhile (fun c => !pyWs c)
    if run.isEmpty then none else some ("https://".data ++ run)
  else if startsWithSeq "http://".data cs then
    let run := (cs.drop 7).takeWhile (fun c => !pyWs c)
    if run.isEmpty then none else some ("http://".data ++ run)
  else none

/-- `re.search(r"https?://\S+", s)`: leftmost match. -/
def urlSearch : List Char → Option (List Char)
  | [] => none
  | c :: cs =>
    match urlAt (c :: cs) with
    | some u => some u
    | none => urlSearch cs

/-- The verb alternation `(?:search|look\s*up|find)` (case-insensitive)
at the head; the alternatives start with distinct letters, so at most one
can open at a given position. -/
def verbAt (cs : List Char) : Option (List Char) :=
  if startsWithCI "search".data cs then some (cs.drop 6)
  else if startsWithCI "look".data cs then
    let r := (cs.drop 4).dropWhile pyWs
    if startsWithCI "up".data r then some (r.drop 2) else none
  else if startsWithCI "find".data cs then some (cs.drop 4)
  else none

/-- `(?:search|look\s*up|find)\s+(?:for\s+)?\"([^\"]+)\"` at the head,
returning the quoted group.  After the mandatory whitespace the optional
`for\s+` and the opening quote start with different characters, so the
greedy option cannot mask a success of the skip branch. -/
def quotedAt (cs : List Char) : Option (List Char) :=
  match verbAt cs with
  | none => none
  | some r =>
    let ws := r.takeWhile pyWs
    if ws.isEmpty then none
    else
      let r1 := r.drop ws.length
      let r2 :=
        if startsWithCI "for".data r1 ∧ ¬ ((r1.drop 3).takeWhile pyWs).isEmpty
        then (r1.drop 3).dropWhile pyWs else r1
      match r2 with
      | '"' :: rest =>
        let q := rest.takeWhile (fun c => c ≠ '"')
        if q.isEmpty then none
        else match rest.drop q.length with
          | '"' :: _ => some q
          | _ => none
      | _ => none

def quotedSearch : List Char → Option (List Char)
  | [] => none
  | c :: cs =>
    match quotedAt (c :: cs) with
    | some q => some q
    | none => quotedSearch cs

/-- `(.+)$` without `re.DOTALL`: at least one non-newline character, then
end of string or a sole trailing newline. -/
def dotPlusEnd (r : List Char) : Option (List Char) :=
  let run := r.takeWhile (fun c => c ≠ '\n')
  if run.isEmpty then none
  else match r.drop run.length with
    | [] => some run
    | ['\n'] => some run
    | _ => none

/-- `(?:search|look\s*up|find)\s+(?:for\s+)?(.+)$` at the head.  The
greedy optional `for\s+` is tried first; if the tail then fails, the
engine backtracks to the skip branch. -/
def tailAt (cs : List Char) : Option (List Char) :=
  match verbAt cs with
  | none => none
  | some r =>
    let ws := r.takeWhile pyWs
    if ws.isEmpty then none
    else
      let r1 := r.drop ws.length
      let withFor :=
        if startsWithCI "for".data r1 ∧ ¬ ((r1.drop 3).takeWhile pyWs).isEmpty
        then dotPlusEnd ((r1.drop 3).dropWhile pyWs) else none
      match withFor with
      | some g => some g
      | none => dotPlusEnd r1

def tailSearch : List Char → Option (List Char)
  | [] => none
  | c :: cs =>
    match tailAt (c :: cs) with
    | some g => some g
    | none => tailSearch cs

/-- `OperatorAgent._infer_tool_from_text`: URL → `fetch_page`; quoted
search verb → `web_search`; unquoted search tail → `web_search`; each
rule fires only if its tool is registered, else the next rule is tried. -/
def _infer_tool_from_text (tools : List ToolSpec) (text : String) :
    Option (String × List (String × String)) :=
  let s := pyStripS text
  if s = "" then none
  else
    match (match urlSearch s.data with
           | some u => if hasTool tools "fetch_page"
                       then some ("fetch_page", [("url", (⟨u⟩ : String))]) else none
           | none => none) with
    | some r => some r
    | none =>
      match (match quotedSearch s.data with
             | some q => if hasTool tools "web_search"
                         then some ("web_search", [("query", (⟨q⟩ : String))]) else none
             | none => none) with
      | some r => some r
      | none =>
        match tailSearch s.data with
        | some g => if hasTool tools "web_search"
                    then some ("web_search", [("query", pyStripS ⟨g⟩)]) else none
        | none => none

/-- `OperatorAgent.execute`.  Besides the observation string, the list of
tool-handler invocations (name, args) is returned; in the source this is
the `progress_cb("tool", ...)` emission immediately before each
`handler(...)` call.  Exceptions raised by handlers are the `Except`
error case and are converted to `error:` observations, never
propagated. -/
def execute (tools : List ToolSpec) (action : ActionSpec) :
    String × List (String × List (String × String)) :=
  -- `if (action.type or "").lower() == "finish"`
  if pyLowerS action.type = "finish" then (pyOrS action.say "finish", [])
  else
    -- `(action.name or None) is not None` — an empty name is falsy
    match action.name with
    | some n =>
      if n = "" then executeInferred tools action
      else
        match getTool tools n with
        | none => ("error: unknown_tool " ++ n ++ "; valid: " ++ sortedNames tools, [])
        | some t =>
          let args := action.args.getD []
          match t.handler args with
          | .ok out => (out, [(n, args)])
          | .error e => ("error: " ++ e, [(n, args)])
    | none => executeInferred tools action
where
  /-- The freeform branch of `execute`: infer a tool or report
  `no_tool_selected`. -/
  executeInferred (tools : List ToolSpec) (action : ActionSpec) :
      String × List (String × List (String × String)) :=
    match _infer_tool_from_text tools (pyOrS action.say "") with
    | some (n, args) =>
      match getTool tools n with
      | some t =>
        match t.handler args with
        | .ok out => (out, [(n, args)])
        | .error e => ("error: tool_failed " ++ n ++ ": " ++ e, [(n, args)])
      | none =>
        -- unreachable: inference only returns registered names; in Python a
        -- KeyError here would be caught by the same `except` clause
        ("error: tool_failed " ++ n ++ ": KeyError", [])
    | none =>
      ("note: no_tool_selected; available: " ++ sortedNames tools ++ "; action=" ++
        String.singleton sqChar ++ pyStripS (pyOrS action.say "") ++ String.singleton sqChar,
       [])

/-! ### The ReAct loop (`ReActAgent.ask`) -/

/-- The three LLM oracles the loop calls, as functions of exactly the
prompt pieces the source passes them (goal, tool catalog, history /
last-step / transcript), returning raw response text. -/
structure LoopEnv where
  thinkerO : String → String → String → String
  validatorO : String → String → String → String
  finalizeO : String → String → String

/-- What `ask` produces, instrumented for verification: the `AskResult`
content, the `steps` list the source accumulates, the tool-handler
invocations performed, and how many `validator.finalize` calls were
made.  (`reasoning`/`usage`/`messages` bookkeeping and the progress
callbacks are not modelled.) -/
structure AskOutcome where
  content : String
  steps : List ReActStep
  toolCalls : List (String × List (String × String))
  finalizeCalls : Nat

/-- `max(1, int(max_rounds))`. -/
def max_steps (max_rounds : Int) : Nat := (max 1 max_rounds).toNat

/-- The body of `ReActAgent.ask`'s `for step_idx in range(1, max_steps+1)`
loop, by remaining iterations; on exhaustion, the forced
`validator.finalize` path. -/
def askLoop (env : LoopEnv) (tools : List ToolSpec) (goal catalog : String) :
    Nat → List String → List String → List ReActStep →
    List (String × List (String × String)) → AskOutcome
  | 0, transcript, display, steps, calls =>
    -- max steps reached: finalize anyway and attach the note
    let final_txt := finalizeText (env.finalizeO goal (pyJoin "\n" transcript))
    { content := pyJoin "\n" (display ++
        ["", "Final Answer: " ++ final_txt, "",
         "Note: max steps reached; answer may be incomplete."])
      steps := steps, toolCalls := calls, finalizeCalls := 1 }
  | remaining + 1, transcript, display, steps, calls =>
    let raw := env.thinkerO goal catalog (pyJoin "\n\n" transcript)
    let ta := _parse_thought_and_action raw
    let thought := ta.1
    let action := ta.2
    let actionDesc := pyOrS action.say (pyOrS action.name action.type)
    let transcript1 := transcript ++ ["Thought: " ++ thought, "Action: " ++ actionDesc]
    -- display transcript may substitute a finish draft for a blank thought
    let dispThought :=
      let t0 := pyStripS thought
      if t0 = "" ∧ pyLowerS (pyStripS action.type) = "finish" ∧
          pyStripS (pyOrS action.say "") ≠ ""
      then pyStripS (pyOrS action.say "") else t0
    let display1 := display ++ ["Thought: " ++ dispThought, "Action: " ++ actionDesc]
    let eo := execute tools action
    let observation := eo.1
    let transcript2 := transcript1 ++ ["Observation: " ++ observation]
    let display2 := display1 ++ ["Observation: " ++ observation]
    let steps2 := steps ++ [{ thought := thought, action := action,
                              observation := observation }]
    let calls2 := calls ++ eo.2
    let lastStep := pyJoin "\n" (takeLastN 3 transcript2)
    let jd := judgeDecision (env.validatorO goal lastStep (pyJoin "\n" transcript2))
    if jd.1 then
      { content := pyJoin "\n" (display2 ++ ["", "Final Answer: " ++ jd.2])
        steps := steps2, toolCalls := calls2, finalizeCalls := 0 }
    else askLoop env tools goal catalog remaining transcript2 display2 steps2 calls2

/-- `ReActAgent.ask`: rejects an empty prompt, then runs the loop for
`max_steps` iterations starting from empty accumulators. -/
def ask (env : LoopEnv) (tools : List ToolSpec) (max_rounds : Int)
    (prompt : String) : Except String AskOutcome :=
  if prompt = "" then .error "Empty prompt"
  else .ok (askLoop env tools prompt (tool_catalog tools)
              (max_steps max_rounds) [] [] [] [])

/-! ## Shared helper lemmas -/

theorem strEta (s : String) : (⟨s.data⟩ : String) = s := by
  cases s
  rfl

theorem str_ne_empty_of_length {s : String} (h : 0 < s.length) : s ≠ "" := by
  intro he
  subst he
  simp at h

/-- Join of a list starting with a cons is head ++ sep ++ join of tail,
when the tail is nonempty. -/
theorem pyJoin_cons_ne (sep x : String) (l : List String) (hl : l ≠ []) :
    pyJoin sep (x :: l) = x ++ sep ++ pyJoin sep l := by
  cases l with
  | nil => exact absurd rfl hl
  | cons y t => rfl

theorem pyJoin_ne_empty (sep : String) (l : List String) (hl : l ≠ [])
    (hx : ∀ x ∈ l, x ≠ "") : pyJoin sep l ≠ "" := by
  cases l with
  | nil => exact absurd rfl hl
  | cons x t =>
    cases t with
    | nil => exact hx x (by simp)
    | cons y t' =>
      have hxne : x ≠ "" := hx x (by simp)
      have : 0 < (pyJoin sep (x :: y :: t')).length := by
        rw [pyJoin_cons_ne sep x (y :: t') (by simp)]
        simp [String.length_append]
        have : 0 < x.length := by
          cases hxl : x.length with
          | zero =>
            exfalso
            apply hxne
            cases x with
            | mk d =>
              simp [String.length] at hxl
              simp [hxl]
          | succ n => omega
        omega
      exact str_ne_empty_of_length this

theorem natDigsCore_ne_nil : ∀ (fuel n : Nat) (acc : List Char),
    (acc ≠ [] ∨ fuel ≠ 0) → natDigsCore fuel n acc ≠ [] := by
  intro fuel
  induction fuel with
  | zero =>
    intro n acc h
    simp [natDigsCore]
    rcases h with h | h
    · exact h
    · exact absurd rfl h
  | succ f ih =>
    intro n acc _
    simp only [natDigsCore]
    by_cases hn : n < 10
    · simp [hn]
    · simp [hn]
      exact ih (n / 10) _ (Or.inl (by simp))

theorem natRepr_ne_empty (n : Nat) : natRepr n ≠ "" := by
  have := natDigsCore_ne_nil (n + 1) n [] (Or.inr (by simp))
  intro he
  have : (natRepr n).data = [] := by rw [he]
  simp [natRepr] at this
  exact natDigsCore_ne_nil (n + 1) n [] (Or.inr (by simp)) this

theorem str_append_ne_left {a : String} (b : String) (ha : a ≠ "") : a ++ b ≠ "" := by
  apply str_ne_empty_of_length
  rw [String.length_append]
  have : 0 < a.length := by
    cases hl : a.length with
    | zero =>
      exfalso
      apply ha
      cases a with
      | mk d =>
        simp [String.length] at hl
        simp [hl]
    | succ k => omega
  omega

theorem intRepr_ne_empty (i : Int) : intRepr i ≠ "" := by
  unfold intRepr
  by_cases h : i < 0
  · simp [h]
    exact str_append_ne_left _ (by decide)
  · simp [h]
    exact natRepr_ne_empty _

theorem pyDumps_ne_empty (v : PyVal) : pyDumps v ≠ "" := by
  cases v with
  | null => simp only [pyDumps]; decide
  | pbool b => cases b <;> (simp only [pyDumps]; decide)
  | pnum n =>
    simp only [pyDumps]
    exact intRepr_ne_empty n
  | pstr s =>
    simp only [pyDumps]
    exact str_append_ne_left _ (str_append_ne_left _ (by decide))
  | plist xs =>
    simp only [pyDumps]
    exact str_append_ne_left _ (str_append_ne_left _ (by decide))
  | pdict kvs =>
    simp only [pyDumps]
    exact str_append_ne_left _ (str_append_ne_left _ (by decide))

/-! ## Claim C5 — Operator error containment -/

/-- C5: `Operator.execute` never lets a failure escape as an exception:
an action naming an unregistered tool yields the `error: unknown_tool`
observation listing the valid (sorted) tool names with no handler call; a
registered handler that raises yields an `error: <message>` observation
on the explicit-name path and an `error: tool_failed <name>: <message>`
observation on the inferred path.  `execute` is a total function into
observation strings, so no handler exception ever propagates to the ReAct
loop. -/
theorem C5_execute_error_containment :
    (∀ (tools : List ToolSpec) (a : ActionSpec) (n : String),
       pyLowerS a.type ≠ "finish" → a.name = some n → n ≠ "" →
       getTool tools n = none →
       execute tools a =
         ("error: unknown_tool " ++ n ++ "; valid: " ++ sortedNames tools, [])) ∧
    (∀ (tools : List ToolSpec) (a : ActionSpec) (n : String) (t : ToolSpec) (e : String),
       pyLowerS a.type ≠ "finish" → a.name = some n → n ≠ "" →
       getTool tools n = some t → t.handler (a.args.getD []) = .error e →
       execute tools a = ("error: " ++ e, [(n, a.args.getD [])])) ∧
    (∀ (tools : List ToolSpec) (a : ActionSpec) (n : String)
       (args : List (String × String)) (t : ToolSpec) (e : String),
       pyLowerS a.type ≠ "finish" → a.name = none →
       _infer_tool_from_text tools (pyOrS a.say "") = some (n, args) →
       getTool tools n = some t → t.handler args = .error e →
       execute tools a = ("error: tool_failed " ++ n ++ ": " ++ e, [(n, args)])) := by
  refine ⟨?_, ?_, ?_⟩
  · intro tools a n hfin hname hne hget
    unfold execute
    rw [if_neg hfin, hname]
    simp [hne, hget]
  · intro tools a n t e hfin hname hne hget hh
    unfold execute
    rw [if_neg hfin, hname]
    simp [hne, hget, hh]
  · intro tools a n args t e hfin hname hinf hget hh
    unfold execute
    rw [if_neg hfin, hname]
    unfold execute.executeInferred
    rw [hinf]
    simp [hget, hh]

/-- Witness for C5 at concrete inputs: a registry with one tool whose
handler throws, plus an unknown-tool action. -/
def boomTool : ToolSpec :=
  { name := "boom", description := "always fails", handler := fun _ => .error "kapow" }

theorem C5_execute_error_containment_witness :
    execute [boomTool] { type := "tool", name := some "nope" } =
      ("error: unknown_tool nope; valid: boom", []) ∧
    execute [boomTool] { type := "tool", name := some "boom" } =
      ("error: kapow", [("boom", [])]) := by
  constructor
  · exact C5_execute_error_containment.1 [boomTool]
      { type := "tool", name := some "nope" } "nope"
      (by decide) rfl (by decide) rfl |>.trans (by decide)
  · exact C5_execute_error_containment.2.1 [boomTool]
      { type := "tool", name := some "boom" } "boom" boomTool "kapow"
      (by decide) rfl (by decide) rfl rfl |>.trans (by decide)

/-! ## Claim C4 — Operator free-text tool inference -/

/-- Demo tools used by concrete scenarios: handlers echo their single
argument. -/
def fetchPageTool : ToolSpec :=
  { name := "fetch_page", description := "fetch a page",
    handler := fun a => .ok ("fetched:" ++ (a.headD ("", "")).2) }

def webSearchTool : ToolSpec :=
  { name := "web_search", description := "search the web",
    handler := fun a => .ok ("searched:" ++ (a.headD ("", "")).2) }

/-- C4: freeform-action inference.  Rules are tried in order, each gated
on its tool being registered: (1) a URL match with `fetch_page`
registered invokes `fetch_page` with that URL; (2) otherwise a quoted
search/look up/find phrase with `web_search` registered invokes
`web_search` with the quoted text; (3) otherwise an unquoted tail after
those verbs invokes `web_search` with the stripped tail; (4) if no rule
matches, `execute` returns the `no_tool_selected` note naming the
available tools.  Includes the spec's two concrete scenarios, showing the
inferred handler really is invoked with the inferred arguments. -/
theorem C4_operator_inference :
    (∀ (tools : List ToolSpec) (text : String) (u : List Char),
       urlSearch (pyStripS text).data = some u → hasTool tools "fetch_page" = true →
       _infer_tool_from_text tools text =
         some ("fetch_page", [("url", (⟨u⟩ : String))])) ∧
    (∀ (tools : List ToolSpec) (text : String) (q : List Char),
       (urlSearch (pyStripS text).data = none ∨ hasTool tools "fetch_page" = false) →
       quotedSearch (pyStripS text).data = some q → hasTool tools "web_search" = true →
       _infer_tool_from_text tools text =
         some ("web_search", [("query", (⟨q⟩ : String))])) ∧
    (∀ (tools : List ToolSpec) (text : String) (g : List Char),
       (urlSearch (pyStripS text).data = none ∨ hasTool tools "fetch_page" = false) →
       quotedSearch (pyStripS text).data = none → tailSearch (pyStripS text).data = some g →
       hasTool tools "web_search" = true →
       _infer_tool_from_text tools text =
         some ("web_search", [("query", pyStripS ⟨g⟩)])) ∧
    (∀ (tools : List ToolSpec) (a : ActionSpec),
       pyLowerS a.type ≠ "finish" → a.name = none →
       _infer_tool_from_text tools (pyOrS a.say "") = none →
       execute tools a =
         ("note: no_tool_selected; available: " ++ sortedNames tools ++ "; action=" ++
            String.singleton sqChar ++ pyStripS (pyOrS a.say "") ++ String.singleton sqChar,
          [])) ∧
    (execute [fetchPageTool, webSearchTool]
        { type := "plan", say := some "Open https://example.com/page" } =
      ("fetched:https://example.com/page",
       [("fetch_page", [("url", "https://example.com/page")])])) ∧
    (execute [fetchPageTool, webSearchTool]
        { type := "plan", say := some ("search for " ++ String.singleton '"' ++
            "climate policy" ++ String.singleton '"') } =
      ("searched:climate policy",
       [("web_search", [("query", "climate policy")])])) := by
  refine ⟨?_, ?_, ?_, ?_, ?_, ?_⟩
  · intro tools text u hurl htool
    unfold _infer_tool_from_text
    have hs : pyStripS text ≠ "" := by
      intro he
      rw [he] at hurl
      simp [urlSearch] at hurl
    simp [hs, hurl, htool]
  · intro tools text q hfirst hq htool
    unfold _infer_tool_from_text
    have hs : pyStripS text ≠ "" := by
      intro he
      rw [he] at hq
      simp [quotedSearch] at hq
    rcases hfirst with h | h
    · simp [hs, h, hq, htool]
    · cases hu : urlSearch (pyStripS text).data with
      | none => simp [hs, hu, hq, htool]
      | some u => simp [hs, hu, h, hq, htool]
  · intro tools text g hfirst hq hg htool
    unfold _infer_tool_from_text
    have hs : pyStripS text ≠ "" := by
      intro he
      rw [he] at hg
      simp [tailSearch] at hg
    rcases hfirst with h | h
    · simp [hs, h, hq, hg, htool]
    · cases hu : urlSearch (pyStripS text).data with
      | none => simp [hs, hu, hq, hg, htool]
      | some u => simp [hs, hu, h, hq, hg, htool]
  · intro tools a hfin hname hinf
    unfold execute
    rw [if_neg hfin, hname]
    unfold execute.executeInferred
    rw [hinf]
  · rfl
  · rfl

/-- Witness for C4's conditional clauses at concrete inputs (rule 1 and
the no-match fallback). -/
theorem C4_operator_inference_witness :
    _infer_tool_from_text [fetchPageTool] "Open https://example.com/page" =
      some ("fetch_page", [("url", "https://example.com/page")]) ∧
    execute [fetchPageTool] { type := "plan", say := some "calc 2+2" } =
      ("note: no_tool_selected; available: fetch_page; action=" ++
         String.singleton sqChar ++ "calc 2+2" ++ String.singleton sqChar, []) := by
  constructor
  · exact C4_operator_inference.1 [fetchPageTool] "Open https://example.com/page"
      "https://example.com/page".data rfl rfl
  · exact C4_operator_inference.2.2.2.1 [fetchPageTool]
      { type := "plan", say := some "calc 2+2" } (by decide) rfl rfl |>.trans (by rfl)

/-! ## Claim C6 — retry behaviour of `_make_request` (code bug) -/

/-- A request trace whose first response is a rate limit and whose later
responses succeed: a single retry would have succeeded. -/
def resp429then200 : Nat → HttpOutcome :=
  fun n => if n = 1 then .resp 429 none "" else .resp 200 (some (.pdict [])) ""

/-- C6 (code bug): `_post_once` does classify HTTP 429 and 5xx as the
retryable `LMStudioAPIError` and other 4xx as the non-retried plain
`LMStudioError` — but `_make_request` iterates tenacity's `Retrying`
without the required `with attempt:` block (`for _ in retryer: return
self._post_once(...)`), so a raised `LMStudioAPIError` propagates out of
the `for` body on attempt 1 and is never retried: exactly one HTTP
attempt is made even for transient errors, with no backoff, contradicting
the claim (and the client's own docstring and "with N retries" log line).
The spec-modelled retry semantics (`makeRequestRetrySpec`) would have
returned success on attempt 2. -/
theorem C6_transient_retry_code_bug :
    _post_once 30 (.resp 503 none "") = .error (.api "Server error (503)" (some 503)) ∧
    _post_once 30 (.resp 429 none "") = .error (.api "Rate limited (429)" (some 429)) ∧
    _post_once 30 (.resp 400 none "bad") = .error (.client "Client error (400): bad") ∧
    LMErr.retryable (.api "Rate limited (429)" (some 429)) = true ∧
    LMErr.retryable (.client "Client error (400): bad") = false ∧
    _make_request 30 resp429then200 3 =
      (.error (.api "Rate limited (429)" (some 429)), 1) ∧
    makeRequestRetrySpec 30 resp429then200 1 3 = (.ok (.pdict []), 2) ∧
    _make_request 30 (fun _ => .resp 400 none "bad") 3 =
      (.error (.client "Client error (400): bad"), 1) := by
  refine ⟨?_, rfl, ?_, rfl, rfl, rfl, rfl, ?_⟩ <;> rfl

/-! ## Claim C9 — constructor never fails on absent credentials -/

/-- Counterexample to C9 as stated: with no base URL and no API key in
either the arguments or the environment, `LMStudioClient.__init__`
succeeds (it does not raise any configuration error), falling back to the
hard-coded default base URL and omitting the Authorization header. -/
theorem C9_counterexample :
    lmstudio_init none none (fun _ => none) =
      .ok { base_url := "http://192.168.1.157:1234/v1", api_key := none,
            timeout_s := 30, max_retries := 3, retry_base_wait := 1,
            retry_max_wait := 30,
            headers := [("Content-Type", "application/json")] } ∧
    ∀ e, lmstudio_init none none (fun _ => none) ≠ .error e := by
  constructor
  · rfl
  · intro e h
    rw [show lmstudio_init none none (fun _ => none) =
          .ok { base_url := "http://192.168.1.157:1234/v1", api_key := none,
                timeout_s := 30, max_retries := 3, retry_base_wait := 1,
                retry_max_wait := 30,
                headers := [("Content-Type", "application/json")] } from rfl] at h
    exact Except.noConfusion h

/-- C9 (amended): `LMStudioClient.__init__` never fails; when the base
URL is absent from both the argument and the environment it falls back to
the default `http://192.168.1.157:1234` normalised to end in `/v1`, and
when the API key is absent the client simply carries no Authorization
header (the key is optional for local LM Studio). -/
theorem C9_construction_never_fails (bu ak : Option String)
    (env : String → Option String) :
    ∃ c, lmstudio_init bu ak env = .ok c ∧
      (bu = none → env "LMSTUDIO_BASE_URL" = none →
        c.base_url = "http://192.168.1.157:1234/v1") ∧
      (ak = none → env "LMSTUDIO_API_KEY" = none →
        c.api_key = none ∧ c.headers = [("Content-Type", "application/json")]) := by
  refine ⟨_, rfl, ?_, ?_⟩
  · intro h1 h2
    subst h1
    simp only [lmstudio_init, pyFirstTruthy, h2]
    decide
  · intro h1 h2
    subst h1
    simp only [lmstudio_init, pyFirstTruthy, h2]
    exact ⟨trivial, by decide⟩

/-- Witness for C9 (amended) at the all-absent configuration. -/
theorem C9_construction_never_fails_witness :
    ∃ c, lmstudio_init none none (fun _ => none) = .ok c ∧
      c.base_url = "http://192.168.1.157:1234/v1" ∧ c.api_key = none := by
  obtain ⟨c, hc, h1, h2⟩ := C9_construction_never_fails none none (fun _ => none)
  exact ⟨c, hc, h1 rfl rfl, (h2 rfl rfl).1⟩

/-! ## Claim C3 — memory context builder under `keep_last=2, max_chars=50` -/

theorem pySliceFrom_neg_length (m : Nat) (hm : 0 < m) (s : String) :
    (pySliceFrom (-(m : Int)) s).length ≤ m := by
  unfold pySliceFrom
  have hneg : (-(m : Int)) < 0 := by omega
  simp only [hneg, if_pos]
  have : ∀ (cs : List Char) (k : Nat), ((⟨cs.drop k⟩ : String)).length = cs.length - k := by
    intro cs k
    show (String.mk (cs.drop k)).length = _
    simp [String.length]
  rw [this]
  omega

theorem pySliceFrom_neg_of_le (m : Nat) (hm : 0 < m) (s : String)
    (h : s.length ≤ m) : pySliceFrom (-(m : Int)) s = s := by
  unfold pySliceFrom
  have hneg : (-(m : Int)) < 0 := by omega
  simp only [hneg, if_pos]
  have hlen : s.data.length = s.length := rfl
  have hstart : (max 0 ((s.data.length : Int) + -(m : Int))).toNat = 0 := by omega
  rw [hstart]
  simp [strEta]

/-- C3 (amended): with `keep_last=2`, `max_chars=50` and five stored
items whose joined `role: content` text exceeds 50 characters,
`build_context()` returns exactly the last 50 characters of the joined
last-2-items text (the head budget `max_chars - len(tail) - 50` is never
positive at `max_chars=50`, so the head is dropped entirely and no
summarizer runs); the result length is always ≤ 50, and the last two
items appear verbatim only when their joined text itself fits in 50
characters. -/
theorem C3_build_context_tail_clip (i1 i2 i3 i4 i5 : MemoryItem) (sb : Bool)
    (summarizer : Option (String → Int → Except String String))
    (h : (joinItems [i1, i2, i3, i4, i5]).length > 50) :
    build_context [i1, i2, i3, i4, i5]
        { keep_last := 2, max_chars := 4000, summarize_beyond := sb }
        summarizer none (some 50) =
      pySliceFrom (-50) (joinItems [i4, i5]) ∧
    (build_context [i1, i2, i3, i4, i5]
        { keep_last := 2, max_chars := 4000, summarize_beyond := sb }
        summarizer none (some 50)).length ≤ 50 ∧
    ((joinItems [i4, i5]).length ≤ 50 →
      build_context [i1, i2, i3, i4, i5]
          { keep_last := 2, max_chars := 4000, summarize_beyond := sb }
          summarizer none (some 50) = joinItems [i4, i5]) := by
  have hmain : build_context [i1, i2, i3, i4, i5]
      { keep_last := 2, max_chars := 4000, summarize_beyond := sb }
      summarizer none (some 50) = pySliceFrom (-50) (joinItems [i4, i5]) := by
    unfold build_context
    simp only [select_items]
    have hsel : ([i1, i2, i3, i4, i5] : List MemoryItem).isEmpty = false := rfl
    rw [hsel]
    simp only [Bool.false_eq_true, if_false]
    have hkl : (max 1 (({ keep_last := 2, max_chars := 4000, summarize_beyond := sb } :
        MemoryPolicy).keep_last)).toNat = 2 := rfl
    have hmc : pyOrInt (some 50) (({ keep_last := 2, max_chars := 4000, summarize_beyond := sb } : MemoryPolicy).max_chars) = 50 := rfl
    rw [hkl, hmc]
    have hraw : ¬ (((joinItems [i1, i2, i3, i4, i5]).data.length : Int) ≤ 50) := by
      have h' : 50 < (joinItems [i1, i2, i3, i4, i5]).data.length := h
      omega
    rw [if_neg hraw]
    have htake : ([i1, i2, i3, i4, i5] : List MemoryItem).take
        (([i1, i2, i3, i4, i5] : List MemoryItem).length - 2) = [i1, i2, i3] := rfl
    have hdrop : ([i1, i2, i3, i4, i5] : List MemoryItem).drop
        (([i1, i2, i3, i4, i5] : List MemoryItem).length - 2) = [i4, i5] := rfl
    rw [htake, hdrop]
    -- the head text is three `role: content` lines joined: never empty
    have hhead : joinItems [i1, i2, i3] ≠ "" := by
      apply str_ne_empty_of_length
      show 0 < (pyJoin "\n" [_, _, _]).length
      rw [pyJoin_cons_ne _ _ _ (by simp), pyJoin_cons_ne _ _ _ (by simp)]
      simp [String.length_append]
      exact Or.inl (Or.inr (by decide))
    rw [if_neg hhead]
    -- at max_chars = 50, the head budget 50 - len(tail) - 50 is ≤ 0
    have hbudget : (max 0 ((50 : Int) - (joinItems [i4, i5]).data.length - 50)) ≤ 0 := by
      have : (0 : Int) ≤ (joinItems [i4, i5]).data.length := by positivity
      omega
    rw [if_pos hbudget]
  refine ⟨hmain, ?_, ?_⟩
  · rw [hmain]
    exact pySliceFrom_neg_length 50 (by omega) _
  · intro hle
    rw [hmain]
    exact pySliceFrom_neg_of_le 50 (by omega) _ hle

/-- Five concrete items for the C3 scenario: 30-character contents, so
the joined text is 169 characters and the joined last-2 text is 67. -/
def c3items : List MemoryItem :=
  [{ role := "u", content := "AAAAAAAAAAAAAAAAAAAAAAAAAAAAAA" },
   { role := "u", content := "AAAAAAAAAAAAAAAAAAAAAAAAAAAAAA" },
   { role := "u", content := "AAAAAAAAAAAAAAAAAAAAAAAAAAAAAA" },
   { role := "u", content := "BBBBBBBBBBBBBBBBBBBBBBBBBBBBBB" },
   { role := "u", content := "CCCCCCCCCCCCCCCCCCCCCCCCCCCCCC" }]

set_option maxRecDepth 8000 in
/-- Counterexample to C3 as stated: for these five items (joined text 169
chars > 50), the built context is the last 50 characters of the tail
join, which clips the fourth item — its literal content does not appear
in the result, so "includes the literal text of the last 2 selected items
verbatim" fails (the ≤ 50 length bound does hold). -/
theorem C3_counterexample :
    (joinItems c3items).length > 50 ∧
    build_context c3items { keep_last := 2, max_chars := 4000 } none none (some 50) =
      "BBBBBBBBBBBBBBBB\nu: CCCCCCCCCCCCCCCCCCCCCCCCCCCCCC" ∧
    (build_context c3items { keep_last := 2, max_chars := 4000 } none none
        (some 50)).length = 50 ∧
    containsStr
      (build_context c3items { keep_last := 2, max_chars := 4000 } none none (some 50))
      "BBBBBBBBBBBBBBBBBBBBBBBBBBBBBB" = false := by
  refine ⟨by decide, by decide, by decide, by decide⟩

set_option maxRecDepth 8000 in
/-- Witness for C3 (amended) at concrete items. -/
theorem C3_build_context_tail_clip_witness :
    build_context c3items { keep_last := 2, max_chars := 4000, summarize_beyond := true }
        none none (some 50) =
      pySliceFrom (-50) (joinItems (c3items.drop 3)) := by
  exact (C3_build_context_tail_clip
    { role := "u", content := "AAAAAAAAAAAAAAAAAAAAAAAAAAAAAA" }
    { role := "u", content := "AAAAAAAAAAAAAAAAAAAAAAAAAAAAAA" }
    { role := "u", content := "AAAAAAAAAAAAAAAAAAAAAAAAAAAAAA" }
    { role := "u", content := "BBBBBBBBBBBBBBBBBBBBBBBBBBBBBB" }
    { role := "u", content := "CCCCCCCCCCCCCCCCCCCCCCCCCCCCCC" }
    true none (by decide)).1

/-! ## Claim C7 — `extract_content` shape handling -/

theorem ne_empty_of_strip_ne {s : String} (h : pyStripS s ≠ "") : s ≠ "" := by
  intro he
  subst he
  exact h rfl

/-- Every string `_collect` emits is non-blank (it only ever appends
stripped non-empty text). -/
theorem collect_mem_ne_empty :
    ∀ (n : Nat) (v : PyVal), sizeOf v ≤ n → ∀ s ∈ collect v, s ≠ "" := by
  intro n
  induction n with
  | zero =>
    intro v hv
    exfalso
    cases v <;> simp at hv
  | succ n ih =>
    intro v hv s hs
    cases v with
    | null => simp [collect] at hs
    | pbool b => simp [collect] at hs
    | pnum k => simp [collect] at hs
    | pstr str =>
      simp only [collect] at hs
      by_cases hstr : pyStripS str = ""
      · simp [hstr] at hs
      · simp [hstr] at hs
        subst hs
        exact hstr
    | plist xs =>
      simp only [collect, List.mem_flatMap, List.mem_attach] at hs
      obtain ⟨⟨x, hx⟩, -, hsx⟩ := hs
      have h1 : sizeOf x < sizeOf xs := List.sizeOf_lt_of_mem hx
      have h2 : sizeOf (PyVal.plist xs) ≤ n + 1 := hv
      have h3 : sizeOf x ≤ n := by
        simp at h2
        omega
      exact ih x h3 s hsx
    | pdict kvs =>
      have hkvs : sizeOf kvs ≤ n := by
        have : sizeOf (PyVal.pdict kvs) ≤ n + 1 := hv
        simp at this
        omega
      simp only [collect, List.mem_append] at hs
      rcases hs with ((h1 | h2) | h3) | h4
      · -- the `text` branch
        split at h1
        next t heq =>
          by_cases ht : pyStripS t = ""
          · simp [ht] at h1
          · simp [ht] at h1
            subst h1
            exact ht
        next ts heq =>
          simp only [List.mem_flatMap, List.mem_attach] at h1
          obtain ⟨⟨x, hx⟩, -, hsx⟩ := h1
          have hsz1 : sizeOf (PyVal.plist ts) < sizeOf kvs := getv_sizeOf heq
          have hsz2 : sizeOf x < sizeOf ts := List.sizeOf_lt_of_mem hx
          refine ih x ?_ s hsx
          simp at hsz1
          omega
        next => simp at h1
      · split at h2
        next v heq =>
          by_cases hn : v.isNull
          · simp [hn] at h2
          · simp [hn] at h2
            have hsz : sizeOf v < sizeOf kvs := getv_sizeOf heq
            exact ih v (by omega) s h2
        next heq => simp at h2
      · split at h3
        next v heq =>
          by_cases hn : v.isNull
          · simp [hn] at h3
          · simp [hn] at h3
            have hsz : sizeOf v < sizeOf kvs := getv_sizeOf heq
            exact ih v (by omega) s h3
        next heq => simp at h3
      · split at h4
        next v heq =>
          by_cases hn : v.isNull
          · simp [hn] at h4
          · simp [hn] at h4
            have hsz : sizeOf v < sizeOf kvs := getv_sizeOf heq
            exact ih v (by omega) s h4
        next heq => simp at h4

theorem collectL_mem_ne_empty (xs : List PyVal) :
    ∀ s ∈ collectL xs, s ≠ "" := by
  intro s hs
  simp only [collectL, List.mem_flatMap] at hs
  obtain ⟨v, -, hsv⟩ := hs
  exact collect_mem_ne_empty (sizeOf v) v (Nat.le_refl _) s hsv

/-- C7: `extract_content` tries the content shapes in a fixed order — a
non-blank plain string is returned as-is; else a list of typed parts has
its collected nested text joined; else a `parsed` field is
JSON-serialised; else a tool-calls-only message yields the deterministic
placeholder summarising each call by id prefix and tool name; else it
raises the malformed-response `LMStudioError` — and a successful result
is never the empty string. -/
theorem C7_extract_content_shapes :
    (∀ (m : RespMsg) (rest : List RespMsg) (s : String),
       m.content = .pstr s → pyStripS s ≠ "" →
       extract_content (m :: rest) = .ok s) ∧
    (∀ (m : RespMsg) (rest : List RespMsg) (xs : List PyVal),
       m.content = .plist xs → collectL xs ≠ [] →
       extract_content (m :: rest) = .ok (pyJoin "\n" (collectL xs))) ∧
    (∀ (m : RespMsg) (rest : List RespMsg) (p : PyVal),
       contentText m.content = none → m.parsed = some p →
       extract_content (m :: rest) = .ok (pyDumps p)) ∧
    (∀ (m : RespMsg) (rest : List RespMsg),
       contentText m.content = none → m.parsed = none → m.tool_calls ≠ [] →
       extract_content (m :: rest) = .ok (toolCallPlaceholder m.tool_calls)) ∧
    (∀ (m : RespMsg) (rest : List RespMsg),
       contentText m.content = none → m.parsed = none → m.tool_calls = [] →
       extract_content (m :: rest) = .error "Empty content in response") ∧
    (extract_content [] = .error "No choices in response") ∧
    (∀ (choices : List RespMsg) (s : String),
       extract_content choices = .ok s → s ≠ "") := by
  refine ⟨?_, ?_, ?_, ?_, ?_, rfl, ?_⟩
  · intro m rest s hc hne
    simp only [extract_content]
    rw [hc]
    simp [contentText, hne]
  · intro m rest xs hc hne
    simp only [extract_content]
    rw [hc]
    simp [contentText, hne]
  · intro m rest p hc hp
    simp only [extract_content]
    rw [hc, hp]
  · intro m rest hc hp htc
    simp only [extract_content]
    rw [hc, hp]
    simp [htc]
  · intro m rest hc hp htc
    simp only [extract_content]
    rw [hc, hp]
    simp [htc]
  · intro choices s hok
    cases choices with
    | nil => simp [extract_content] at hok
    | cons m rest =>
      simp only [extract_content] at hok
      cases hct : contentText m.content with
      | some s0 =>
        rw [hct] at hok
        simp at hok
        subst hok
        -- a contentText success is either the raw non-blank string or a
        -- join of non-blank collected parts
        cases hmc : m.content with
        | pstr str =>
          rw [hmc] at hct
          simp only [contentText] at hct
          by_cases hstr : pyStripS str = ""
          · simp [hstr] at hct
          · simp [hstr] at hct
            subst hct
            exact ne_empty_of_strip_ne hstr
        | plist xs =>
          rw [hmc] at hct
          simp only [contentText] at hct
          by_cases hxs : (collectL xs).isEmpty
          · simp [hxs] at hct
          · simp [hxs] at hct
            subst hct
            have hnil : collectL xs ≠ [] := by
              intro he
              rw [he] at hxs
              simp at hxs
            apply pyJoin_ne_empty _ _ hnil
            exact collectL_mem_ne_empty xs
        | null => rw [hmc] at hct; simp [contentText] at hct
        | pbool b => rw [hmc] at hct; simp [contentText] at hct
        | pnum k => rw [hmc] at hct; simp [contentText] at hct
        | pdict d => rw [hmc] at hct; simp [contentText] at hct
      | none =>
        rw [hct] at hok
        cases hp : m.parsed with
        | some p =>
          rw [hp] at hok
          simp at hok
          subst hok
          exact pyDumps_ne_empty p
        | none =>
          rw [hp] at hok
          by_cases htc : m.tool_calls.isEmpty
          · simp [htc] at hok
          · simp [htc] at hok
            subst hok
            simp only [toolCallPlaceholder]
            exact pyDumps_ne_empty _

/-- Witness for C7 at a concrete plain-string response. -/
theorem C7_extract_content_shapes_witness :
    extract_content [{ content := .pstr "  hello " }] = .ok "  hello " := by
  exact C7_extract_content_shapes.1 { content := .pstr "  hello " } [] "  hello "
    rfl (by decide)

/-! ## Claims C10 and C1 — loop budget facts -/

/-- The max-steps content layout: joining the display lines with the
trailing `["", "Final Answer: <f>", "", note]` block ends in the final
answer line followed by a blank line and the note. -/
theorem pyJoin_tail_note (xs : List String) (f b : String) :
    ∃ p, pyJoin "\n" (xs ++ ["", "Final Answer: " ++ f, "", b]) =
      p ++ "Final Answer: " ++ f ++ "\n\n" ++ b := by
  induction xs with
  | nil =>
    refine ⟨"\n", ?_⟩
    apply String.ext
    simp [pyJoin, String.data_append]
  | cons x xs' ih =>
    obtain ⟨p', hp'⟩ := ih
    refine ⟨x ++ "\n" ++ p', ?_⟩
    rw [List.cons_append, pyJoin_cons_ne _ _ _ (by simp), hp']
    apply String.ext
    simp [String.data_append]

/-- The loop never shrinks the accumulated step list. -/
theorem askLoop_steps_le (env : LoopEnv) (tools : List ToolSpec)
    (goal catalog : String) :
    ∀ (rem : Nat) (t d : List String) (s : List ReActStep)
      (cl : List (String × List (String × String))),
      s.length ≤ (askLoop env tools goal catalog rem t d s cl).steps.length := by
  intro rem
  induction rem with
  | zero => intro t d s cl; simp [askLoop]
  | succ k ih =>
    intro t d s cl
    simp only [askLoop]
    split
    · simp
    · refine le_trans ?_ (ih _ _ _ _)
      simp

/-- With at least one remaining iteration, at least one full step is
recorded before any finalize path. -/
theorem askLoop_steps_pos (env : LoopEnv) (tools : List ToolSpec)
    (goal catalog : String) (k : Nat) (t d : List String) (s : List ReActStep)
    (cl : List (String × List (String × String))) :
    s.length + 1 ≤ (askLoop env tools goal catalog (k + 1) t d s cl).steps.length := by
  simp only [askLoop]
  split
  · simp
  · refine le_trans ?_ (askLoop_steps_le env tools goal catalog _ _ _ _ _)
    simp

/-- C10: `ReActAgent.__init__` clamps the budget to
`max_steps = max(1, int(max_rounds))`, so for every integer `max_rounds`
— zero and negatives included — the budget is at least 1, and `ask` on a
non-empty prompt records at least one full
Thinker→Operator→Validator step. -/
theorem C10_min_one_step (mr : Int) (env : LoopEnv) (tools : List ToolSpec)
    (prompt : String) (hp : prompt ≠ "") :
    1 ≤ max_steps mr ∧
    ∃ out, ask env tools mr prompt = .ok out ∧ 1 ≤ out.steps.length := by
  have hms : 1 ≤ max_steps mr := by
    unfold max_steps
    have h1 : (1 : Int) ≤ max 1 mr := le_max_left 1 mr
    omega
  refine ⟨hms, ?_⟩
  unfold ask
  rw [if_neg hp]
  refine ⟨_, rfl, ?_⟩
  obtain ⟨k, hk⟩ : ∃ k, max_steps mr = k + 1 := by
    cases hcase : max_steps mr with
    | zero => rw [hcase] at hms; omega
    | succ k => exact ⟨k, rfl⟩
  rw [hk]
  have := askLoop_steps_pos env tools prompt (tool_catalog tools) k [] [] [] []
  simpa using this

/-- A trivial scripted environment for loop witnesses. -/
def contEnv : LoopEnv :=
  { thinkerO := fun _ _ _ => "Thought: look again\nAction: keep looking"
    validatorO := fun _ _ _ => "Decision: continue"
    finalizeO := fun _ _ => "Final Answer: best effort" }

theorem C10_min_one_step_witness :
    1 ≤ max_steps (-5) ∧
    ∃ out, ask contEnv [] (-5) "solve it" = .ok out ∧ 1 ≤ out.steps.length := by
  exact C10_min_one_step (-5) contEnv [] "solve it" (by decide)

/-- When the validator always continues, the loop consumes its whole
budget, steps once per remaining iteration, makes exactly one finalize
call, and its content ends in the `Final Answer:` line followed by the
max-steps note. -/
theorem askLoop_all_continue (env : LoopEnv) (tools : List ToolSpec)
    (goal catalog : String)
    (hv : ∀ g l t, (judgeDecision (env.validatorO g l t)).1 = false) :
    ∀ (rem : Nat) (t d : List String) (s : List ReActStep)
      (cl : List (String × List (String × String))),
      (askLoop env tools goal catalog rem t d s cl).steps.length = s.length + rem ∧
      (askLoop env tools goal catalog rem t d s cl).finalizeCalls = 1 ∧
      ∃ p f, (askLoop env tools goal catalog rem t d s cl).content =
        p ++ "Final Answer: " ++ f ++ "\n\n" ++
          "Note: max steps reached; answer may be incomplete." := by
  intro rem
  induction rem with
  | zero =>
    intro t d s cl
    refine ⟨by simp [askLoop], by simp [askLoop], ?_⟩
    simp only [askLoop]
    obtain ⟨p, hp⟩ := pyJoin_tail_note d
      (finalizeText (env.finalizeO goal (pyJoin "\n" t)))
      "Note: max steps reached; answer may be incomplete."
    exact ⟨p, _, hp⟩
  | succ k ih =>
    intro t d s cl
    simp only [askLoop]
    rw [if_neg (by rw [hv]; simp)]
    obtain ⟨h1, h2, h3⟩ := ih _ _ _ _
    refine ⟨?_, h2, h3⟩
    rw [h1]
    simp
    omega

/-- C1: if the Validator never confirms (its parsed decision is always
"continue"), `ask` runs exactly `max_steps` Thinker→Operator→Validator
iterations, then makes exactly one additional `validator.finalize` call,
and returns content whose tail is the `Final Answer: <text>` line
followed by the may-be-incomplete note — the accumulated result is not
dropped. -/
theorem C1_budget_exhaustion_finalize (env : LoopEnv) (tools : List ToolSpec)
    (mr : Int) (prompt : String) (hp : prompt ≠ "")
    (hv : ∀ g l t, (judgeDecision (env.validatorO g l t)).1 = false) :
    ∃ out, ask env tools mr prompt = .ok out ∧
      out.steps.length = max_steps mr ∧
      out.finalizeCalls = 1 ∧
      ∃ p f, out.content =
        p ++ "Final Answer: " ++ f ++ "\n\n" ++
          "Note: max steps reached; answer may be incomplete." := by
  unfold ask
  rw [if_neg hp]
  refine ⟨_, rfl, ?_⟩
  obtain ⟨h1, h2, h3⟩ := askLoop_all_continue env tools prompt (tool_catalog tools) hv
    (max_steps mr) [] [] [] []
  exact ⟨by simpa using h1, h2, h3⟩

theorem C1_budget_exhaustion_finalize_witness :
    ∃ out, ask contEnv [] 2 "solve it" = .ok out ∧
      out.steps.length = max_steps 2 ∧
      out.finalizeCalls = 1 ∧
      ∃ p f, out.content =
        p ++ "Final Answer: " ++ f ++ "\n\n" ++
          "Note: max steps reached; answer may be incomplete." := by
  exact C1_budget_exhaustion_finalize contEnv [] 2 "solve it" (by decide)
    (fun g l t => by rfl)

/-! ## Claim C2 — first-step `Final Answer: 42` -/

/-- A scripted Thinker that immediately finishes, with a Validator that
always continues (the claim as stated says nothing about the
Validator). -/
def c2env : LoopEnv :=
  { thinkerO := fun _ _ _ => "Final Answer: 42"
    validatorO := fun _ _ _ => "Decision: continue"
    finalizeO := fun _ _ => "Final Answer: done" }

set_option maxRecDepth 8000 in
/-- Counterexample to C2 as stated: with the Thinker scripted to answer
`Final Answer: 42` but a Validator that keeps deciding "continue"
(`max_rounds = 2`), `ask` does NOT return after one step and its content
does not end in `Final Answer: 42` — the loop has no finish short-circuit
and termination is the Validator's decision alone. -/
theorem C2_counterexample :
    (ask c2env [] 2 "q").toOption.map
        (fun o => (o.steps.length, endsWithStr o.content "Final Answer: 42")) =
      some (2, false) ∧
    ¬ ((ask c2env [] 2 "q").toOption.map
        (fun o => (o.steps.length, endsWithStr o.content "Final Answer: 42")) =
      some (1, true)) := by
  have h1 : (ask c2env [] 2 "q").toOption.map
      (fun o => (o.steps.length, endsWithStr o.content "Final Answer: 42")) =
      some (2, false) := by decide
  refine ⟨h1, ?_⟩
  rw [h1]
  decide

/-- C2 (amended): a Thinker response of exactly `Final Answer: 42` parses
to a finish action whose `say` is `"42"`; the Operator returns that `say`
verbatim as the observation, invoking no tool handler; and if the
Validator, judging that step, itself confirms with final text `42`,
`ask` returns after exactly one step with content ending in
`Final Answer: 42` (the final text comes from the Validator — the loop
never terminates on the finish action alone). -/
theorem C2_finish_step (env : LoopEnv) (tools : List ToolSpec) (mr : Int)
    (prompt : String) (hp : prompt ≠ "")
    (ht : ∀ g c h, env.thinkerO g c h = "Final Answer: 42")
    (hv : ∀ g l t, judgeDecision (env.validatorO g l t) = (true, "42")) :
    _parse_thought_and_action "Final Answer: 42" =
      ("", { type := "finish", name := none, args := none, say := some "42" }) ∧
    ∃ out, ask env tools mr prompt = .ok out ∧
      out.steps.length = 1 ∧
      out.toolCalls = [] ∧
      out.steps.map (fun st => (st.action.type, st.action.say, st.observation)) =
        [("finish", some "42", "42")] ∧
      ∃ p, out.content = p ++ "Final Answer: 42" := by
  refine ⟨rfl, ?_⟩
  obtain ⟨k, hk⟩ : ∃ k, max_steps mr = k + 1 := by
    have hms : 1 ≤ max_steps mr := by
      unfold max_steps
      have h1 : (1 : Int) ≤ max 1 mr := le_max_left 1 mr
      omega
    cases hcase : max_steps mr with
    | zero => rw [hcase] at hms; omega
    | succ k => exact ⟨k, rfl⟩
  have hrun : askLoop env tools prompt (tool_catalog tools) (k + 1) [] [] [] [] =
      { content := "Thought: 42\nAction: 42\nObservation: 42\n\nFinal Answer: 42"
        steps := [{ thought := ""
                    action := { type := "finish", name := none, args := none,
                                say := some "42" }
                    observation := "42" }]
        toolCalls := [], finalizeCalls := 0 } := by
    simp only [askLoop]
    rw [ht, hv]
    rfl
  unfold ask
  rw [if_neg hp, hk, hrun]
  exact ⟨_, rfl, rfl, rfl, rfl,
    ⟨"Thought: 42\nAction: 42\nObservation: 42\n\n", by decide⟩⟩

/-- A fully scripted environment where the Validator confirms `42`. -/
def c2okEnv : LoopEnv :=
  { thinkerO := fun _ _ _ => "Final Answer: 42"
    validatorO := fun _ _ _ => "Final Answer: 42"
    finalizeO := fun _ _ => "Final Answer: done" }

theorem C2_finish_step_witness :
    ∃ out, ask c2okEnv [] 6 "q" = .ok out ∧
      out.steps.length = 1 ∧
      out.toolCalls = [] ∧
      out.steps.map (fun st => (st.action.type, st.action.say, st.observation)) =
        [("finish", some "42", "42")] ∧
      ∃ p, out.content = p ++ "Final Answer: 42" := by
  exact (C2_finish_step c2okEnv [] 6 "q" (by decide)
    (fun g c h => rfl) (fun g l t => rfl)).2

/-! ## Claim C8 — `format_inline_citations` idempotence -/

/-- Any text containing a literal `[1]` passes the `\[[0-9]+\]` scan. -/
theorem markerScan_append_marker : ∀ (a b : List Char),
    markerScanC (a ++ '[' :: '1' :: ']' :: b) = true := by
  intro a
  induction a with
  | nil =>
    intro b
    have hd1 : Char.isDigit '1' = true := rfl
    have hd2 : Char.isDigit ']' = false := rfl
    simp [markerScanC, List.takeWhile, hd1, hd2]
  | cons c a' ih =>
    intro b
    simp only [List.cons_append, markerScanC, Bool.or_eq_true]
    exact Or.inr (ih b)

/-- The joined sources block starts with the `[1]` marker. -/
theorem srcLines_head_data (u : List Char) (us : List (List Char)) :
    ∃ t, (pyJoin "\n" (srcLines 1 (u :: us))).data = '[' :: '1' :: ']' :: t := by
  cases us with
  | nil => exact ⟨_, rfl⟩
  | cons l' us' => exact ⟨_, rfl⟩

/-- `format_inline_citations` returns marker-bearing input unchanged. -/
theorem fic_id_of_marker {s : String} (h : markerScanC s.data = true) :
    format_inline_citations s = s := by
  unfold format_inline_citations
  by_cases h1 : pyStripS s = ""
  · rw [if_pos h1]
    by_cases h0 : s = ""
    · rw [if_pos h0, h0]
    · rw [if_neg h0]
  · rw [if_neg h1, if_pos h]

/-- `format_inline_citations` returns input with a Sources/References
heading unchanged. -/
theorem fic_id_of_sources {s : String} (h : srcScan s.data = true) :
    format_inline_citations s = s := by
  by_cases h2 : markerScanC s.data = true
  · exact fic_id_of_marker h2
  · unfold format_inline_citations
    by_cases h1 : pyStripS s = ""
    · rw [if_pos h1]
      by_cases h0 : s = ""
      · rw [if_pos h0, h0]
      · rw [if_neg h0]
    · rw [if_neg h1, if_neg h2, if_pos h]

set_option maxRecDepth 16000 in
/-- C8: `format_inline_citations` is idempotent; input that already
contains a `[n]` marker, or a line opening with a Sources/References
heading, is returned unchanged; and the spec's fresh-text example gets
`[1]`, `[2]` in first-appearance order plus the trailing Sources block. -/
theorem C8_format_inline_citations :
    (∀ s : String,
       format_inline_citations (format_inline_citations s) =
         format_inline_citations s) ∧
    (∀ s : String, markerScanC s.data = true → format_inline_citations s = s) ∧
    (∀ s : String, srcScan s.data = true → format_inline_citations s = s) ∧
    (format_inline_citations "See https://a.example/x and https://b.example/y" =
      "See [1] and [2]\n\nSources\n[1] https://a.example/x\n[2] https://b.example/y\n") := by
  refine ⟨?_, @fic_id_of_marker, @fic_id_of_sources, by decide⟩
  intro s
  by_cases h1 : pyStripS s = ""
  · by_cases h0 : s = ""
    · subst h0
      decide
    · have hfs : format_inline_citations s = s := by
        unfold format_inline_citations
        rw [if_pos h1, if_neg h0]
      rw [hfs]
      exact hfs
  · by_cases h2 : markerScanC s.data = true
    · rw [fic_id_of_marker h2]
      exact fic_id_of_marker h2
    · by_cases h3 : srcScan s.data = true
      · rw [fic_id_of_sources h3]
        exact fic_id_of_sources h3
      · by_cases h4 : ((citeSub s.data []).1.isEmpty = true)
        · have hfs : format_inline_citations s = s := by
            unfold format_inline_citations
            rw [if_neg h1, if_neg h2, if_neg h3, if_pos h4]
          rw [hfs]
          exact hfs
        · -- fresh URLs were rewritten: the output now carries a `[1]`
          -- marker (in its Sources block), so a second pass is identity
          have hfs : format_inline_citations s =
              (⟨dropWsR (citeSub s.data []).2⟩ : String) ++ "\n\nSources\n" ++
                pyJoin "\n" (srcLines 1 (citeSub s.data []).1) ++ "\n" := by
            unfold format_inline_citations
            rw [if_neg h1, if_neg h2, if_neg h3, if_neg h4]
          obtain ⟨u, us, hseen⟩ : ∃ u us, (citeSub s.data []).1 = u :: us := by
            cases hc : (citeSub s.data []).1 with
            | nil =>
              exfalso
              apply h4
              rw [hc]
              rfl
            | cons a b => exact ⟨a, b, rfl⟩
          obtain ⟨t, ht⟩ := srcLines_head_data u us
          have hmark : markerScanC
              ((⟨dropWsR (citeSub s.data []).2⟩ : String) ++ "\n\nSources\n" ++
                pyJoin "\n" (srcLines 1 (citeSub s.data []).1) ++ "\n").data = true := by
            rw [hseen]
            have hr : ((⟨dropWsR (citeSub s.data []).2⟩ : String) ++ "\n\nSources\n" ++
                pyJoin "\n" (srcLines 1 (u :: us)) ++ "\n").data =
                (dropWsR (citeSub s.data []).2 ++ "\n\nSources\n".data) ++
                  ('[' :: '1' :: ']' :: (t ++ "\n".data)) := by
              simp only [String.data_append]
              rw [ht]
              simp [List.append_assoc]
            rw [hr]
            exact markerScan_append_marker _ _
          rw [hfs]
          exact fic_id_of_marker hmark

/-- Witness for C8's conditional clauses at concrete inputs. -/
theorem C8_format_inline_citations_witness :
    format_inline_citations (format_inline_citations "go to https://a.example/x now") =
      format_inline_citations "go to https://a.example/x now" ∧
    format_inline_citations "Already [1] cited" = "Already [1] cited" ∧
    format_inline_citations "Sources\nstuff" = "Sources\nstuff" := by
  refine ⟨C8_format_inline_citations.1 _, ?_, ?_⟩
  · exact C8_format_inline_citations.2.1 "Already [1] cited" (by decide)
  · exact C8_format_inline_citations.2.2.1 "Sources\nstuff" (by decide)

end SimpleOrAgent
